import Mathlib

/-!
Verification development for the vtzero vector-tile library.

The definitions below are a shallow embedding of the C++ sources:

* `geometry.hpp` — the geometry command-stream decoder
  (`detail::geometry_decoder` with its `next_command`, `next_point`,
  `decode_linestring`, `decode_polygon` members, and `detail::det`,
  `detail::move_cursor`, zig-zag decoding from protozero).
* `types.hpp` — `GeomType`, `property_value_type`, the name tables
  `geom_type_name` / `property_value_type_name`, and `property_map`.
* `property_value.hpp` — the tag/wire checking of `property_value::type()`,
  the kind-checked accessors (`get_value<T>`), and `apply_visitor`.
* `builder.hpp` plus the parts of the builder implementation that are not in
  the sources at hand (`builder_impl.hpp`, `vector_tile.hpp`,
  `encoded_property_value.hpp`); those are modelled from the specification
  and marked as such in their doc comments.

Machine integers are modelled as `Nat`/`Int` with explicit reductions
(`% 2 ^ 32`, wrapping to `int32_t`) where the C++ code truncates.
Exceptions are modelled with `Except`.  Handler callbacks are modelled as
event lists in call order.  While-loops are modelled with a fuel parameter
that is always sufficient (each loop iteration of the C++ code consumes at
least one element of the input).
-/

namespace vtzero

/-- A 2-D point with `int32_t` coordinates (source: `struct point<2>` in
geometry.hpp).  Coordinates are `Int`s; every value stored by the decoder
has been wrapped to the `int32_t` range by `to_int32`. -/
structure point where
  x : Int
  y : Int
deriving DecidableEq, Repr

/-- The C++ `static_cast<int32_t>` on an `int64_t`: wrap into
`[-2^31, 2^31)`. -/
def to_int32 (n : Int) : Int :=
  (n + 2 ^ 31) % 2 ^ 32 - 2 ^ 31

/-- protozero's `decode_zigzag32` applied to a `uint32_t`:
`(value >> 1) ^ -(value & 1)`.  For even inputs this is `n / 2`, for odd
inputs `-(n / 2) - 1`. -/
def decode_zigzag32 (n : Nat) : Int :=
  let m := n % 2 ^ 32
  if m % 2 = 0 then ((m / 2 : Nat) : Int) else -((m / 2 : Nat) : Int) - 1

/-- `detail::get_command_id`: the low 3 bits of a command integer. -/
def get_command_id (c : Nat) : Nat := c % 8

/-- `detail::get_command_count`: the high 29 bits of a command integer
(the value is a `uint32_t`, hence the reduction). -/
def get_command_count (c : Nat) : Nat := c % 2 ^ 32 / 8

/-- `detail::command_integer`: `(id & 0x7) | (count << 3)`. -/
def command_integer (id count : Nat) : Nat := id % 8 + count * 8

/-- `detail::det`: the 2x2 determinant `a.x * b.y - b.x * a.y` over
`int64_t` (modelled as `Int`; the products of in-range `int32_t` values are
what the C++ computes wherever its `int64_t` arithmetic is defined). -/
def det (a b : point) : Int := a.x * b.y - b.x * a.y

/-- `ring_type` from geometry.hpp. -/
inductive ring_type where
  | outer
  | inner
  | invalid
deriving DecidableEq, Repr

/-- The geometry errors thrown by the decoder, one constructor per throw
site in geometry.hpp (`out_of_fuel` is an artifact of the fuel-based loop
model and is never reached with the fuel supplied by the entry points). -/
inductive geom_error where
  | expected_command (expected got : Nat)
  | close_path_count_not_1
  | max_count_too_large
  | too_few_points
  | move_to_count_not_1
  | line_to_count_zero
  | expected_line_to
  | expected_close_path
  | out_of_fuel
deriving DecidableEq, Repr

/-- The mutable state of `detail::geometry_decoder`: the remaining
`uint32_t` stream (`m_it`/`m_end`), the cursor, the pending count
(`m_count`), and `m_max_count`. -/
structure dec_state where
  it : List Nat
  cursor : point
  count : Nat
  max_count : Nat
deriving DecidableEq, Repr

/-- `geometry_decoder::next_command`: `ok none` models the C++ `return
false` (end of stream); `ok (some s)` models `return true` with the updated
state.  The command id is checked first; for ClosePath the count must be 1
and `m_count` stays 0, otherwise `m_count` is set and checked against
`m_max_count`. -/
def next_command (expected : Nat) (s : dec_state) :
    Except geom_error (Option dec_state) :=
  match s.it with
  | [] => .ok none
  | c :: rest =>
    if get_command_id c ≠ expected then
      .error (.expected_command expected (get_command_id c))
    else if expected = 7 then
      if get_command_count c ≠ 1 then .error .close_path_count_not_1
      else .ok (some { s with it := rest })
    else
      let cnt := get_command_count c
      if cnt > s.max_count then .error .max_count_too_large
      else .ok (some { s with it := rest, count := cnt })

/-- `geometry_decoder::next_point` (2-D): requires at least two stream
elements, zig-zag-decodes two deltas, moves the cursor with `int32_t`
wrap-around (`detail::move_cursor`), and decrements `m_count`. -/
def next_point (s : dec_state) : Except geom_error (point × dec_state) :=
  match s.it with
  | dx :: dy :: rest =>
    let nx := to_int32 (s.cursor.x + decode_zigzag32 dx)
    let ny := to_int32 (s.cursor.y + decode_zigzag32 dy)
    .ok (⟨nx, ny⟩, { s with it := rest, cursor := ⟨nx, ny⟩, count := s.count - 1 })
  | _ => .error .too_few_points

/-- The loop `while (count() > 0) ... next_point() ...` reading `k` points:
returns the points in order and the final state. -/
def read_points : Nat → dec_state → Except geom_error (List point × dec_state)
  | 0, s => .ok ([], s)
  | k + 1, s =>
    match next_point s with
    | .error e => .error e
    | .ok (p, s') =>
      match read_points k s' with
      | .error e => .error e
      | .ok (ps, s'') => .ok (p :: ps, s'')

/-- The handler callbacks of `decode_linestring`, in call order. -/
inductive linestring_event where
  | linestring_begin (n : Nat)
  | linestring_point (p : point)
  | linestring_end
deriving DecidableEq, Repr

/-- The `while (next_command(MoveTo))` loop of
`geometry_decoder::decode_linestring`, as a fuel-indexed recursion (each
iteration consumes at least one stream element, so the fuel supplied by
`decode_linestring` never runs out). -/
def decode_linestring_loop :
    Nat → dec_state → Except geom_error (List linestring_event)
  | 0, _ => .error .out_of_fuel
  | fuel + 1, s =>
    match next_command 1 s with
    | .error e => .error e
    | .ok none => .ok []
    | .ok (some s1) =>
      if s1.count ≠ 1 then .error .move_to_count_not_1
      else
        match next_point s1 with
        | .error e => .error e
        | .ok (fp, s2) =>
          match next_command 2 s2 with
          | .error e => .error e
          | .ok none => .error .expected_line_to
          | .ok (some s3) =>
            if s3.count = 0 then .error .line_to_count_zero
            else
              match read_points s3.count s3 with
              | .error e => .error e
              | .ok (ps, s4) =>
                match decode_linestring_loop fuel s4 with
                | .error e => .error e
                | .ok rest =>
                  .ok ([.linestring_begin (s3.count + 1), .linestring_point fp] ++
                       ps.map .linestring_point ++ [.linestring_end] ++ rest)

/-- `geometry_decoder::decode_linestring` on a `uint32_t` stream with the
given `m_max_count`, starting from the origin cursor. -/
def decode_linestring (stream : List Nat) (max : Nat) :
    Except geom_error (List linestring_event) :=
  decode_linestring_loop (stream.length + 1) ⟨stream, ⟨0, 0⟩, 0, max⟩

/-- The handler callbacks of `decode_polygon`, in call order. -/
inductive ring_event where
  | ring_begin (n : Nat)
  | ring_point (p : point)
  | ring_end (t : ring_type)
deriving DecidableEq, Repr

/-- The loop reading the `k` LineTo points of a ring while accumulating the
shoelace sum `sum += det(last_point, p)` and tracking `last_point`
(starting from the given point). -/
def read_ring :
    Nat → point → dec_state →
    Except geom_error (List point × Int × point × dec_state)
  | 0, last, s => .ok ([], 0, last, s)
  | k + 1, last, s =>
    match next_point s with
    | .error e => .error e
    | .ok (p, s') =>
      match read_ring k p s' with
      | .error e => .error e
      | .ok (ps, sm, lst, s'') => .ok (p :: ps, det last p + sm, lst, s'')

/-- The classification expression of `ring_end(...)` in `decode_polygon`:
`sum > 0 ? outer : sum < 0 ? inner : invalid`. -/
def classify_ring (sum : Int) : ring_type :=
  if sum > 0 then .outer else if sum < 0 then .inner else .invalid

/-- The `while (next_command(MoveTo))` loop of
`geometry_decoder::decode_polygon` (note: the C++ checks the MoveTo count
and the ClosePath count, but places no lower bound on the LineTo count). -/
def decode_polygon_loop :
    Nat → dec_state → Except geom_error (List ring_event)
  | 0, _ => .error .out_of_fuel
  | fuel + 1, s =>
    match next_command 1 s with
    | .error e => .error e
    | .ok none => .ok []
    | .ok (some s1) =>
      if s1.count ≠ 1 then .error .move_to_count_not_1
      else
        match next_point s1 with
        | .error e => .error e
        | .ok (start, s2) =>
          match next_command 2 s2 with
          | .error e => .error e
          | .ok none => .error .expected_line_to
          | .ok (some s3) =>
            match read_ring s3.count start s3 with
            | .error e => .error e
            | .ok (ps, sm, lst, s4) =>
              match next_command 7 s4 with
              | .error e => .error e
              | .ok none => .error .expected_close_path
              | .ok (some s5) =>
                match decode_polygon_loop fuel s5 with
                | .error e => .error e
                | .ok rest =>
                  .ok ([.ring_begin (s3.count + 2), .ring_point start] ++
                       ps.map .ring_point ++
                       [.ring_point start,
                        .ring_end (classify_ring (sm + det lst start))] ++ rest)

/-- `geometry_decoder::decode_polygon` on a `uint32_t` stream with the
given `m_max_count`, starting from the origin cursor. -/
def decode_polygon (stream : List Nat) (max : Nat) :
    Except geom_error (List ring_event) :=
  decode_polygon_loop (stream.length + 1) ⟨stream, ⟨0, 0⟩, 0, max⟩

/-- The sum of `det` over consecutive pairs of a point list.  For a closed
list `p₀ :: … :: p₀` this is the shoelace sum of the ring. -/
def path_det : List point → Int
  | a :: b :: rest => det a b + path_det (b :: rest)
  | _ => 0

/-- The event block emitted by `decode_polygon` for one ring:
`ring_begin n`, the start point, the LineTo points, the start point again,
and `ring_end t`. -/
def ring_block (n : Nat) (start : point) (qs : List point) (t : ring_type) :
    List ring_event :=
  [.ring_begin n, .ring_point start] ++ qs.map .ring_point ++
    [.ring_point start, .ring_end t]

/-! ## types.hpp: enums, name tables, property_map -/

/-- `GeomType` from types.hpp (the fork adds `SPLINE = 4`). -/
inductive GeomType where
  | UNKNOWN
  | POINT
  | LINESTRING
  | POLYGON
  | SPLINE
deriving DecidableEq, Repr

/-- `static_cast<int>` of a `GeomType`. -/
def GeomType.toNat : GeomType → Nat
  | .UNKNOWN => 0
  | .POINT => 1
  | .LINESTRING => 2
  | .POLYGON => 3
  | .SPLINE => 4

/-- The `names` array inside `geom_type_name` (four entries). -/
def geom_type_names : List String := ["unknown", "point", "linestring", "polygon"]

/-- `geom_type_name`: `names[static_cast<int>(type)]`.  The C++ indexes the
static array without a bounds check; the embedding surfaces the access as
`List.get?`, so `none` marks an out-of-bounds read (undefined behavior in
the source). -/
def geom_type_name (t : GeomType) : Option String :=
  geom_type_names.get? t.toNat

/-- `property_value_type` from types.hpp. -/
inductive property_value_type where
  | string_value
  | float_value
  | double_value
  | int_value
  | uint_value
  | sint_value
  | bool_value
  | map_value
  | list_value
deriving DecidableEq, Repr

/-- The numeric protobuf tag of a `property_value_type` (1–9). -/
def property_value_type.toNat : property_value_type → Nat
  | .string_value => 1
  | .float_value => 2
  | .double_value => 3
  | .int_value => 4
  | .uint_value => 5
  | .sint_value => 6
  | .bool_value => 7
  | .map_value => 8
  | .list_value => 9

/-- The `names` array inside `property_value_type_name` (eight entries). -/
def property_value_type_names : List String :=
  ["", "string", "float", "double", "int", "uint", "sint", "bool"]

/-- `property_value_type_name`: `names[static_cast<int>(type)]`, again with
the unchecked array access surfaced as `List.get?`. -/
def property_value_type_name (t : property_value_type) : Option String :=
  property_value_type_names.get? t.toNat

/-- The format errors thrown by `property_map` in types.hpp. -/
inductive fmt_error where
  | unpaired_tags
  | more_than_one_tags
deriving DecidableEq, Repr

/-- `property_map` from types.hpp, reduced to the fields the claims are
about: the packed index range (`none` models the default-constructed
iterator range whose `begin()` equals `uint32_iterator{}`) and
`m_num_properties`. -/
structure property_map where
  props : Option (List Nat)
  num_properties : Nat
deriving DecidableEq, Repr

/-- A default-constructed `property_map` (as held by a fresh feature before
a tags field is seen). -/
def empty_property_map : property_map := ⟨none, 0⟩

/-- `property_map::set_size`: an odd number of packed indexes is a format
error, otherwise `m_num_properties = size / 2`. -/
def set_size (l : List Nat) : Except fmt_error Nat :=
  if l.length % 2 ≠ 0 then .error .unpaired_tags else .ok (l.length / 2)

/-- The `property_map(layer, properties)` constructor: store the range and
run `set_size`. -/
def property_map_of_range (l : List Nat) : Except fmt_error property_map :=
  (set_size l).map fun n => ⟨some l, n⟩

/-- `property_map::initialize`: a second tags field (the range already set)
is the format error "Feature has more than one tags field"; otherwise store
the range and run `set_size`. -/
def property_map_init (m : property_map) (l : List Nat) :
    Except fmt_error property_map :=
  if m.props.isSome then .error .more_than_one_tags
  else (set_size l).map fun n => ⟨some l, n⟩

/-! ## property_value.hpp: kind checking and visitor dispatch

The protobuf record reader is, per the specification, an external
collaborator that supplies an iteration of (tag, wire type, payload)
fields; a `property_value`'s bytes are therefore modelled as the field list
the reader yields for them. -/

/-- One protobuf field of a value message as supplied by the record
reader: tag, wire type, raw payload bytes. -/
structure pbf_field where
  tag : Nat
  wire : Nat
  payload : List Nat
deriving DecidableEq, Repr

/-- The wire type of each value tag, from the `types` array in
`property_value::check_tag_and_type` (2 = length-delimited, 5 = fixed32,
1 = fixed64, 0 = varint). -/
def wire_of : Nat → Nat
  | 1 => 2
  | 2 => 5
  | 3 => 1
  | 4 => 0
  | 5 => 0
  | 6 => 0
  | 7 => 0
  | 8 => 2
  | 9 => 2
  | _ => 0

/-- `property_value::check_tag_and_type`. -/
def check_tag_and_type (tag wire : Nat) : Bool :=
  1 ≤ tag && tag ≤ 9 && wire = wire_of tag

/-- The errors of the property-value accessors: `format_exception` for a
missing or ill-typed first field in `type()`, `type_exception` from
`get_value<T>` when no field of the requested kind exists. -/
inductive pv_error where
  | missing_tag
  | illegal_type
  | type_mismatch
deriving DecidableEq, Repr

/-- `property_value::type()`: look at the first field of the value message;
fail if there is none or its tag/wire combination is illegal. -/
def pv_type (fields : List pbf_field) : Except pv_error Nat :=
  match fields with
  | [] => .error .missing_tag
  | f :: _ =>
    if check_tag_and_type f.tag f.wire then .ok f.tag
    else .error .illegal_type

/-- The scan loop of `property_value::get_value<T>`: the payload of the
last field matching `(T::pvtype, T::wire_type)`, else no result. -/
def get_value_scan (tag : Nat) (fields : List pbf_field) : Option (List Nat) :=
  fields.foldl
    (fun acc f => if f.tag = tag ∧ f.wire = wire_of tag then some f.payload else acc)
    none

/-- `property_value::get_value<T>`: `type_exception` when the scan finds
nothing. -/
def get_value (tag : Nat) (fields : List pbf_field) :
    Except pv_error (List Nat) :=
  match get_value_scan tag fields with
  | some p => .ok p
  | none => .error .type_mismatch

/-- The argument handed to the visitor callable by `apply_visitor`, one
constructor per accessor (the payload bytes stand for the accessor's
decoded result; which accessor ran is what the dispatch claim is about). -/
inductive visited_arg where
  | str_arg (b : List Nat)
  | float_arg (b : List Nat)
  | double_arg (b : List Nat)
  | int_arg (b : List Nat)
  | uint_arg (b : List Nat)
  | sint_arg (b : List Nat)
  | bool_arg (b : List Nat)
  | map_arg (b : List Nat)
  | list_arg (b : List Nat)
deriving DecidableEq, Repr

/-- `apply_visitor` from property_value.hpp: switch on `value.type()` and
hand the matching accessor's result to the visitor.  The translation keeps
the source exactly: the `list_value` case reads `visitor(value.map_value())`
in the C++, so tag 9 runs the map accessor (`get_value 8`), and the
`default` case runs the bool accessor. -/
def apply_visitor (fields : List pbf_field) : Except pv_error visited_arg :=
  match pv_type fields with
  | .error e => .error e
  | .ok t =>
    match t with
    | 1 => (get_value 1 fields).map .str_arg
    | 2 => (get_value 2 fields).map .float_arg
    | 3 => (get_value 3 fields).map .double_arg
    | 4 => (get_value 4 fields).map .int_arg
    | 5 => (get_value 5 fields).map .uint_arg
    | 6 => (get_value 6 fields).map .sint_arg
    | 8 => (get_value 8 fields).map .map_arg
    | 9 => (get_value 8 fields).map .map_arg
    | _ => (get_value 7 fields).map .bool_arg

/-! ## Builder: value dictionary and tile serialization

`layer_builder::add_value` and `tile_builder::serialize` delegate to
`detail::layer_builder_impl` / `detail::layer_builder_existing` in
builder_impl.hpp, and layer iteration lives in vector_tile.hpp; neither
file is among the sources at hand, so these parts are modelled from the
specification. -/

/-- Minimal little-endian base-128 varint encoding (what protozero's
writer emits for lengths). -/
def varint_enc (n : Nat) : List Nat :=
  if h : n < 128 then [n] else (n % 128 + 128) :: varint_enc (n / 128)
termination_by n
decreasing_by
  exact Nat.div_lt_self (by omega) (by omega)

/-- Varint decoding (accepts any continuation-bit sequence): value and
remaining bytes. -/
def varint_dec : List Nat → Option (Nat × List Nat)
  | [] => none
  | b :: rest =>
    if b < 128 then some (b, rest)
    else (varint_dec rest).map fun vr => (b % 128 + 128 * vr.1, vr.2)

/-- Modelled from the spec: the index search of the value dictionary
("lookup table from the encoded value bytes to index",
`detail::layer_builder_impl`, not among the sources): the position of the
first table entry equal to the given bytes. -/
def idx_of : List (List Nat) → List Nat → Option Nat
  | [], _ => none
  | w :: rest, v => if w = v then some 0 else (idx_of rest v).map (· + 1)

/-- Modelled from the spec: `layer_builder::add_value` with deduplication
("add_value returns an existing index or appends"; the implementation in
builder_impl.hpp is not among the sources).  Returns the index and the
updated table. -/
def add_value (table : List (List Nat)) (v : List Nat) :
    Nat × List (List Nat) :=
  match idx_of table v with
  | some i => (i, table)
  | none => (table.length, table ++ [v])

/-- Modelled from the spec: the encoded bytes of an int-kind property value
(`encoded_property_value{int}` is not among the sources; per §6.1 a value
record holds one field, tag 4, varint — key byte `4 << 3 | 0 = 32`). -/
def encoded_int_value (n : Nat) : List Nat := 32 :: varint_enc n

/-- Modelled from the spec: the encoded bytes of the double-kind property
value 19.0 (tag 3, fixed64 — key byte `3 << 3 | 1 = 25` followed by the
little-endian IEEE-754 image of 19.0, `0x4033000000000000`). -/
def encoded_double_value_19 : List Nat := [25, 0, 0, 0, 0, 0, 0, 51, 64]

/-- Modelled from the spec: the framing `serialize()` gives one
pass-through layer (`layer_builder_existing::build` in builder_impl.hpp is
not among the sources): a tag-3 length-delimited field — key byte
`3 << 3 | 2 = 26`, the payload length as a varint, the payload bytes
verbatim. -/
def layer_frame (d : List Nat) : List Nat := 26 :: (varint_enc d.length ++ d)

/-- `tile_builder::serialize` with every layer added by
`add_existing_layer`: concatenate the framed layer bytes. -/
def serialize_tile (ls : List (List Nat)) : List Nat :=
  (ls.map layer_frame).flatten

/-- Modelled from the spec: tile-level layer iteration (vector_tile.hpp is
not among the sources; per §6.1 a tile is a length-delimited record
sequence where only tag 3 is defined and unknown tags are skipped).
Returns the payload bytes of every tag-3 field, in order; fails on a
malformed prefix.  Fuel-indexed; every iteration consumes at least one
byte, so `tile_layers` supplies enough. -/
def tile_layers_loop : Nat → List Nat → Option (List (List Nat))
  | _, [] => some []
  | 0, _ :: _ => none
  | fuel + 1, b :: bs =>
    match varint_dec (b :: bs) with
    | none => none
    | some (key, r1) =>
      let tag := key / 8
      let wire := key % 8
      if wire = 0 then
        match varint_dec r1 with
        | none => none
        | some (_, r2) => tile_layers_loop fuel r2
      else if wire = 1 then
        if 8 ≤ r1.length then tile_layers_loop fuel (r1.drop 8) else none
      else if wire = 2 then
        match varint_dec r1 with
        | none => none
        | some (len, r2) =>
          if len ≤ r2.length then
            if tag = 3 then
              (tile_layers_loop fuel (r2.drop len)).map (r2.take len :: ·)
            else tile_layers_loop fuel (r2.drop len)
          else none
      else if wire = 5 then
        if 4 ≤ r1.length then tile_layers_loop fuel (r1.drop 4) else none
      else none

/-- The layers of a tile buffer. -/
def tile_layers (buf : List Nat) : Option (List (List Nat)) :=
  tile_layers_loop (buf.length + 1) buf

/-! ## Theorems -/

/-- Claim C7: on an empty geometry command stream, `decode_linestring` and
`decode_polygon` return normally — no error is raised and no handler
callback is invoked (the event list is empty), whatever the maximum count
is. -/
theorem decode_empty_geometry_ok (max : Nat) :
    decode_linestring [] max = .ok [] ∧ decode_polygon [] max = .ok [] :=
  ⟨rfl, rfl⟩

/-- Claim C8: decoding the linestring command stream
`{MoveTo(1), 4, 4, LineTo(2), 0, 16, 16, 0}` produces exactly
`linestring_begin(3)`, the points (2,2), (2,10), (10,10) in order, and one
`linestring_end` — and nothing else.  (The maximum count is 4, the byte
size 8 of the packed stream divided by 2, as in
`decode_linestring_geometry`.) -/
theorem decode_linestring_example :
    decode_linestring [9, 4, 4, 18, 0, 16, 16, 0] 4 =
      .ok [.linestring_begin 3, .linestring_point ⟨2, 2⟩,
           .linestring_point ⟨2, 10⟩, .linestring_point ⟨10, 10⟩,
           .linestring_end] := by
  rfl

/-- Claim C9 (code evaluated at the failing inputs): the name-table lookups
are NOT all in bounds.  `geom_type_name` indexes a 4-element array, so
`GeomType::SPLINE` (index 4) reads past its end, and
`property_value_type_name` indexes an 8-element array, so `map_value`
(index 8) and `list_value` (index 9) read past its end — all three lookups
yield `none` in the embedding (an out-of-bounds read in the C++), while the
in-range enumerators do get their names. -/
theorem name_table_lookup_bounds :
    geom_type_name .SPLINE = none ∧
    property_value_type_name .map_value = none ∧
    property_value_type_name .list_value = none ∧
    geom_type_name .UNKNOWN = some "unknown" ∧
    geom_type_name .POINT = some "point" ∧
    geom_type_name .LINESTRING = some "linestring" ∧
    geom_type_name .POLYGON = some "polygon" ∧
    property_value_type_name .string_value = some "string" ∧
    property_value_type_name .bool_value = some "bool" := by
  refine ⟨rfl, rfl, rfl, rfl, rfl, rfl, rfl, rfl, rfl⟩

/-- Claim C3 (code evaluated at the failing input): `apply_visitor` does
NOT pass list-kind values to the list accessor.  For a value whose single
field has tag 9 (list), the source's `case property_value_type::list_value`
reads `visitor(value.map_value())`, and the map accessor finds no tag-8
field, so the dispatch ends in a type error instead of passing
`list_value()`'s result; every other kind is dispatched to its own
accessor. -/
theorem apply_visitor_list_dispatch :
    apply_visitor [⟨9, 2, [0]⟩] = .error .type_mismatch ∧
    apply_visitor [⟨8, 2, [0]⟩] = .ok (.map_arg [0]) ∧
    apply_visitor [⟨1, 2, [97]⟩] = .ok (.str_arg [97]) ∧
    apply_visitor [⟨2, 5, [1, 2, 3, 4]⟩] = .ok (.float_arg [1, 2, 3, 4]) ∧
    apply_visitor [⟨3, 1, [1]⟩] = .ok (.double_arg [1]) ∧
    apply_visitor [⟨4, 0, [19]⟩] = .ok (.int_arg [19]) ∧
    apply_visitor [⟨5, 0, [19]⟩] = .ok (.uint_arg [19]) ∧
    apply_visitor [⟨6, 0, [38]⟩] = .ok (.sint_arg [38]) ∧
    apply_visitor [⟨7, 0, [1]⟩] = .ok (.bool_arg [1]) := by
  refine ⟨rfl, rfl, rfl, rfl, rfl, rfl, rfl, rfl, rfl⟩

/-- Claim C2 is false on this code: a polygon ring whose LineTo command has
count 1 (stream `{MoveTo(1), 4, 4, LineTo(1), 2, 2, ClosePath(1)}`) decodes
without any geometry error — the decoder emits a 3-point ring and
classifies it by its (zero) area instead of rejecting the LineTo count. -/
theorem decode_polygon_lineto_count_one_no_error :
    decode_polygon [9, 4, 4, 10, 2, 2, 15] 3 =
      .ok [.ring_begin 3, .ring_point ⟨2, 2⟩, .ring_point ⟨3, 3⟩,
           .ring_point ⟨2, 2⟩, .ring_end .invalid] := by
  rfl

/-- Claim C2 as amended: `decode_polygon` checks that each ring's MoveTo
command has count 1 (raising "MoveTo command count is not 1" otherwise, for
any count within the maximum) and that its ClosePath command has count 1
(raising "ClosePath command count is not 1" otherwise), but it places no
lower bound on the LineTo count: LineTo commands with count 1 and even
count 0 are accepted without error. -/
theorem decode_polygon_count_checks :
    (∀ (c : Nat) (s : List Nat) (max : Nat),
        get_command_id c = 1 → get_command_count c ≤ max →
        get_command_count c ≠ 1 →
        decode_polygon (c :: s) max = .error .move_to_count_not_1) ∧
    (∀ (c : Nat) (s : List Nat) (max : Nat),
        get_command_id c = 7 → get_command_count c ≠ 1 →
        decode_polygon ([9, 4, 4, 10, 2, 2] ++ c :: s) (max + 1) =
          .error .close_path_count_not_1) ∧
    decode_polygon [9, 4, 4, 10, 2, 2, 15] 3 =
      .ok [.ring_begin 3, .ring_point ⟨2, 2⟩, .ring_point ⟨3, 3⟩,
           .ring_point ⟨2, 2⟩, .ring_end .invalid] ∧
    decode_polygon [9, 4, 4, 2, 15] 3 =
      .ok [.ring_begin 2, .ring_point ⟨2, 2⟩, .ring_point ⟨2, 2⟩,
           .ring_end .invalid] := by
  refine ⟨?_, ?_, rfl, rfl⟩
  · intro c s max h1 h2 h3
    simp only [decode_polygon, List.length_cons, decode_polygon_loop,
      next_command, h1]
    simp only [show ¬((1 : Nat) ≠ 1) by simp, if_false, if_neg (by omega : ¬(1 = 7)),
      if_neg (by omega : ¬get_command_count c > max)]
    simp [h3]
  · intro c s max h1 h2
    have hmax : ¬ (1 > max + 1) := by omega
    simp only [decode_polygon, List.cons_append, List.nil_append,
      List.length_cons]
    show decode_polygon_loop (s.length + 7 + 1) _ = _
    rw [decode_polygon_loop]
    norm_num [get_command_id] at h1
    norm_num [get_command_count] at h2
    norm_num [next_command, next_point, read_ring, get_command_id,
      get_command_count, decode_zigzag32, to_int32, hmax, h1, h2]

/-- Witness for the amended claim C2: a MoveTo with count 2 and a ClosePath
with count 2 each raise their count error at a concrete input. -/
theorem decode_polygon_count_checks_witness :
    decode_polygon [17] 2 = .error .move_to_count_not_1 ∧
    decode_polygon [9, 4, 4, 10, 2, 2, 23] 3 =
      .error .close_path_count_not_1 :=
  ⟨decode_polygon_count_checks.1 17 [] 2 (by decide) (by decide) (by decide),
   decode_polygon_count_checks.2.1 23 [] 2 (by decide) (by decide)⟩

/-- Claim C6: building a `property_map` from a packed index stream of odd
length — whether through the range constructor or through `initialize` on a
fresh map — raises the format error "unpaired property key/value indexes",
while an even-length stream raises no error and sets the property count to
half the stream length. -/
theorem property_map_tags_parity (l : List Nat) :
    (l.length % 2 ≠ 0 →
        property_map_of_range l = .error .unpaired_tags ∧
        property_map_init empty_property_map l = .error .unpaired_tags) ∧
    (l.length % 2 = 0 →
        property_map_of_range l = .ok ⟨some l, l.length / 2⟩ ∧
        property_map_init empty_property_map l = .ok ⟨some l, l.length / 2⟩) := by
  constructor <;> intro h <;>
    simp [property_map_of_range, property_map_init, empty_property_map,
      set_size, h, Except.map]

/-- Witness for claim C6 at the streams `[1, 2, 3]` and `[5, 0, 6, 1]`. -/
theorem property_map_tags_parity_witness :
    (property_map_of_range [1, 2, 3] = .error .unpaired_tags ∧
        property_map_init empty_property_map [1, 2, 3] = .error .unpaired_tags) ∧
    (property_map_of_range [5, 0, 6, 1] = .ok ⟨some [5, 0, 6, 1], 2⟩ ∧
        property_map_init empty_property_map [5, 0, 6, 1] =
          .ok ⟨some [5, 0, 6, 1], 2⟩) :=
  ⟨(property_map_tags_parity [1, 2, 3]).1 (by decide),
   (property_map_tags_parity [5, 0, 6, 1]).2 (by decide)⟩

/-- Claim C10: once a first tags field has initialized the property map,
the map's range is set to that field, and initializing it again with any
second tags field raises the format error "Feature has more than one tags
field". -/
theorem property_map_second_init_rejected (l₁ l₂ : List Nat)
    (m : property_map)
    (h : property_map_init empty_property_map l₁ = .ok m) :
    m.props = some l₁ ∧
    property_map_init m l₂ = .error .more_than_one_tags := by
  simp only [property_map_init, empty_property_map, set_size] at h
  rw [if_neg (by simp)] at h
  split at h
  · simp [Except.map] at h
  · simp only [Except.map] at h
    cases h
    exact ⟨rfl, by simp [property_map_init]⟩

/-- Witness for claim C10: the first tags field `[1, 2]` initializes the
map; a second field `[3, 4]` is rejected. -/
theorem property_map_second_init_rejected_witness :
    (property_map.mk (some [1, 2]) 1).props = some [1, 2] ∧
    property_map_init ⟨some [1, 2], 1⟩ [3, 4] =
      .error .more_than_one_tags :=
  property_map_second_init_rejected [1, 2] [3, 4] ⟨some [1, 2], 1⟩ rfl

/-- The loop invariant of `read_ring`: the accumulated sum is the chained
determinant over the points read so far (starting from the carried last
point), and the returned last point is the final element of that chain. -/
theorem read_ring_spec :
    ∀ (k : Nat) (last : point) (s : dec_state) (ps : List point) (sm : Int)
      (lst : point) (s' : dec_state),
      read_ring k last s = .ok (ps, sm, lst, s') →
      sm = path_det (last :: ps) ∧ (last :: ps).getLast? = some lst := by
  intro k
  induction k with
  | zero =>
    intro last s ps sm lst s' h
    simp only [read_ring, Except.ok.injEq, Prod.mk.injEq] at h
    obtain ⟨h1, h2, h3, -⟩ := h
    subst h1; subst h2; subst h3
    simp [path_det]
  | succ k ih =>
    intro last s ps sm lst s' h
    rw [read_ring] at h
    split at h
    · cases h
    · rename_i x p s1 hp
      split at h
      · cases h
      · rename_i y ps2 sm2 lst2 s2 hr
        simp only [Except.ok.injEq, Prod.mk.injEq] at h
        obtain ⟨h1, h2, h3, h4⟩ := h
        subst h1; subst h2; subst h3; subst h4
        obtain ⟨ih1, ih2⟩ := ih p s1 ps2 sm2 lst2 s2 hr
        constructor
        · rw [ih1]
          rfl
        · rw [List.getLast?_cons_cons]
          exact ih2

/-- The chained determinant over the empty list. -/
theorem path_det_nil : path_det [] = 0 := rfl

/-- The chained determinant over a one-point list. -/
theorem path_det_single (a : point) : path_det [a] = 0 := rfl

/-- Unfolding equation of `path_det`. -/
theorem path_det_cons_cons (a b : point) (rest : List point) :
    path_det (a :: b :: rest) = det a b + path_det (b :: rest) := rfl

/-- Appending the closing point to a chain adds the determinant from the
chain's last element. -/
theorem path_det_concat :
    ∀ (l : List point) (lst z : point), l.getLast? = some lst →
      path_det (l ++ [z]) = path_det l + det lst z := by
  intro l
  induction l with
  | nil => intro lst z h; cases h
  | cons a l ih =>
    intro lst z h
    cases l with
    | nil =>
      simp only [List.getLast?_singleton, Option.some.injEq] at h
      subst h
      simp [path_det_cons_cons, path_det_single, path_det_nil]
    | cons b l2 =>
      rw [List.getLast?_cons_cons] at h
      have step := ih lst z h
      simp only [List.cons_append] at step ⊢
      rw [path_det_cons_cons, path_det_cons_cons, step]
      ring

/-- Event-level shape of a successful polygon decode: the events are a
concatenation of ring blocks, and every block's classification is the sign
of the shoelace sum over its own emitted points. -/
theorem decode_polygon_loop_rings :
    ∀ (fuel : Nat) (s : dec_state) (evs : List ring_event),
      decode_polygon_loop fuel s = .ok evs →
      ∃ rings : List (Nat × point × List point × ring_type),
        evs = (rings.map fun r => ring_block r.1 r.2.1 r.2.2.1 r.2.2.2).flatten ∧
        ∀ r ∈ rings,
          r.2.2.2 = classify_ring (path_det (r.2.1 :: (r.2.2.1 ++ [r.2.1]))) := by
  intro fuel
  induction fuel with
  | zero => intro s evs h; cases h
  | succ fuel ih =>
    intro s evs h
    rw [decode_polygon_loop] at h
    split at h
    · cases h
    · rename_i hnone
      simp only [Except.ok.injEq] at h
      subst h
      exact ⟨[], by simp, by simp⟩
    · rename_i x s1 hcmd1
      split at h
      · cases h
      · split at h
        · cases h
        · rename_i hcount y start s2 hpt
          split at h
          · cases h
          · cases h
          · rename_i z s3 hcmd2
            split at h
            · cases h
            · rename_i w ps sm lst s4 hring
              split at h
              · cases h
              · cases h
              · rename_i u s5 hcmd7
                split at h
                · cases h
                · rename_i rest hrest
                  simp only [Except.ok.injEq] at h
                  subst h
                  obtain ⟨rings, hr1, hr2⟩ := ih s5 rest hrest
                  obtain ⟨hsm, hlast⟩ :=
                    read_ring_spec s3.count start s3 ps sm lst s4 hring
                  refine ⟨(s3.count + 2, start, ps,
                    classify_ring (sm + det lst start)) :: rings, ?_, ?_⟩
                  · simp [ring_block, hr1]
                  · intro r hr
                    rcases List.mem_cons.mp hr with hr | hr
                    · subst hr
                      have key : sm + det lst start =
                          path_det ((start :: ps) ++ [start]) := by
                        rw [path_det_concat (start :: ps) lst start hlast, hsm]
                      simpa using congrArg classify_ring key
                    · exact hr2 r hr

/-- Claim C4: for every successful `decode_polygon` run, the emitted events
decompose into rings, and each ring's `ring_end` classification equals the
sign of the shoelace sum over that ring's emitted points (the start point,
the LineTo points, closed back to the start): strictly positive gives
`outer`, strictly negative gives `inner`, zero gives `invalid` — exactly
`classify_ring` applied to `path_det` of the closed point chain. -/
theorem decode_polygon_ring_classification (stream : List Nat) (max : Nat)
    (evs : List ring_event) (h : decode_polygon stream max = .ok evs) :
    ∃ rings : List (Nat × point × List point × ring_type),
      evs = (rings.map fun r => ring_block r.1 r.2.1 r.2.2.1 r.2.2.2).flatten ∧
      ∀ r ∈ rings,
        r.2.2.2 = classify_ring (path_det (r.2.1 :: (r.2.2.1 ++ [r.2.1]))) :=
  decode_polygon_loop_rings (stream.length + 1) ⟨stream, ⟨0, 0⟩, 0, max⟩ evs h

/-- Witness for claim C4 at the spec's polygon example
`{MoveTo(1), 6, 12, LineTo(2), 10, 12, 24, 44, ClosePath(1)}` (ring (3,6),
(8,12), (20,34) closed to (3,6), classified outer). -/
theorem decode_polygon_ring_classification_witness :
    ∃ rings : List (Nat × point × List point × ring_type),
      ([.ring_begin 4, .ring_point ⟨3, 6⟩, .ring_point ⟨8, 12⟩,
        .ring_point ⟨20, 34⟩, .ring_point ⟨3, 6⟩,
        .ring_end .outer] : List ring_event) =
        (rings.map fun r => ring_block r.1 r.2.1 r.2.2.1 r.2.2.2).flatten ∧
      ∀ r ∈ rings,
        r.2.2.2 = classify_ring (path_det (r.2.1 :: (r.2.2.1 ++ [r.2.1]))) :=
  decode_polygon_ring_classification [9, 6, 12, 18, 10, 12, 24, 44, 15] 4 _ rfl

/-- One-byte varint encoding of small values. -/
theorem varint_enc_small (n : Nat) (h : n < 128) : varint_enc n = [n] := by
  rw [varint_enc]
  simp [h]

/-- A found index points at the searched entry. -/
theorem idx_of_get :
    ∀ (t : List (List Nat)) (v : List Nat) (i : Nat),
      idx_of t v = some i → t.get? i = some v := by
  intro t
  induction t with
  | nil => intro v i h; cases h
  | cons w rest ih =>
    intro v i h
    rw [idx_of] at h
    split at h
    · rename_i hw
      cases h
      simpa using hw
    · simp only [Option.map_eq_some'] at h
      obtain ⟨j, hj, rfl⟩ := h
      simpa using ih v j hj

/-- Appending a missing entry makes it findable at the old length. -/
theorem idx_of_append_self :
    ∀ (t : List (List Nat)) (v : List Nat),
      idx_of t v = none → idx_of (t ++ [v]) v = some t.length := by
  intro t
  induction t with
  | nil => intro v h; simp [idx_of]
  | cons w rest ih =>
    intro v h
    rw [idx_of] at h
    split at h
    · cases h
    · rename_i hw
      simp only [Option.map_eq_none'] at h
      have step := ih v h
      show idx_of ((w :: rest) ++ [v]) v = some (w :: rest).length
      rw [List.cons_append, idx_of, if_neg hw, step]
      simp

/-- The index returned by `add_value` points at the given bytes in the
returned table. -/
theorem add_value_get (t : List (List Nat)) (v : List Nat) (i : Nat)
    (t' : List (List Nat)) (h : add_value t v = (i, t')) :
    t'.get? i = some v := by
  rw [add_value] at h
  split at h
  · rename_i x j hj
    cases h
    exact idx_of_get t v i hj
  · cases h
    exact List.get?_concat_length t v

/-- Claim C5: the layer builder's value dictionary deduplicates by the
encoded byte representation alone — two `add_value` calls with
byte-identical encoded values return the same index, two calls with
distinct encoded bytes return distinct indices, and in particular the
int-kind value 19 (bytes `20 13`) and the double-kind value 19.0 (bytes
`19` + IEEE-754 image) receive the distinct indices 0 and 1 in a fresh
table, while re-adding the int value returns index 0 again. -/
theorem add_value_dedup_by_encoded_bytes :
    (∀ (t : List (List Nat)) (v : List Nat) (i₁ : Nat)
        (t₁ : List (List Nat)) (i₂ : Nat) (t₂ : List (List Nat)),
        add_value t v = (i₁, t₁) → add_value t₁ v = (i₂, t₂) → i₁ = i₂) ∧
    (∀ (t : List (List Nat)) (v₁ v₂ : List Nat) (i₁ : Nat)
        (t₁ : List (List Nat)) (i₂ : Nat) (t₂ : List (List Nat)), v₁ ≠ v₂ →
        add_value t v₁ = (i₁, t₁) → add_value t₁ v₂ = (i₂, t₂) → i₁ ≠ i₂) ∧
    encoded_int_value 19 ≠ encoded_double_value_19 ∧
    (add_value [] (encoded_int_value 19)).1 = 0 ∧
    (add_value (add_value [] (encoded_int_value 19)).2
        encoded_double_value_19).1 = 1 ∧
    (add_value (add_value (add_value [] (encoded_int_value 19)).2
        encoded_double_value_19).2 (encoded_int_value 19)).1 = 0 := by
  have hint : encoded_int_value 19 = [32, 19] := by
    simp [encoded_int_value, varint_enc_small]
  refine ⟨?_, ?_, ?_, ?_, ?_, ?_⟩
  · intro t v i₁ t₁ i₂ t₂ h1 h2
    rw [add_value] at h1
    split at h1
    · rename_i x j hj
      cases h1
      rw [add_value, hj] at h2
      cases h2
      rfl
    · rename_i hj
      cases h1
      rw [add_value, idx_of_append_self t v hj] at h2
      cases h2
      rfl
  · intro t v₁ v₂ i₁ t₁ i₂ t₂ hne h1 h2
    have hget1 : t₁.get? i₁ = some v₁ := add_value_get t v₁ i₁ t₁ h1
    rw [add_value] at h2
    split at h2
    · rename_i x j hj
      cases h2
      intro hi
      subst hi
      have hget2 : t₁.get? i₁ = some v₂ := idx_of_get t₁ v₂ i₁ hj
      rw [hget1] at hget2
      exact hne (by simpa using hget2)
    · cases h2
      intro hi
      have hlt : i₁ < t₁.length := by
        have := List.get?_eq_some.mp hget1
        exact this.1
      omega
  · rw [hint]
    decide
  · rw [hint]
    rfl
  · rw [hint]
    rfl
  · rw [hint]
    rfl

/-- Witness for claim C5: applying the deduplication theorem to the table
built from the encoded int 19 and double 19.0: re-adding the int bytes
returns the original index, and the double bytes got a different index. -/
theorem add_value_dedup_witness :
    (add_value [] [32, 19]).1 = (add_value [[32, 19]] [32, 19]).1 ∧
    (add_value [] [32, 19]).1 ≠
      (add_value [[32, 19]] [25, 0, 0, 0, 0, 0, 0, 51, 64]).1 :=
  ⟨add_value_dedup_by_encoded_bytes.1 [] [32, 19] 0 [[32, 19]] 0 [[32, 19]]
      rfl rfl,
   add_value_dedup_by_encoded_bytes.2.1 [] [32, 19]
      [25, 0, 0, 0, 0, 0, 0, 51, 64] 0 [[32, 19]] 1
      [[32, 19], [25, 0, 0, 0, 0, 0, 0, 51, 64]] (by decide) rfl rfl⟩

/-- Varint decoding inverts varint encoding, whatever bytes follow. -/
theorem varint_dec_enc (n : Nat) :
    ∀ tail, varint_dec (varint_enc n ++ tail) = some (n, tail) := by
  induction n using Nat.strong_induction_on with
  | _ n ih =>
    intro tail
    rw [varint_enc]
    split
    · rename_i h
      simp [varint_dec, h]
    · rename_i h
      have hlt : n / 128 < n := Nat.div_lt_self (by omega) (by omega)
      have hrec := ih (n / 128) hlt tail
      simp only [List.cons_append]
      rw [varint_dec, if_neg (by omega : ¬ n % 128 + 128 < 128), hrec]
      show some ((n % 128 + 128) % 128 + 128 * (n / 128), tail) = some (n, tail)
      have harith : (n % 128 + 128) % 128 + 128 * (n / 128) = n := by omega
      rw [harith]

/-- `serialize_tile` on the empty layer list. -/
theorem serialize_tile_nil : serialize_tile [] = [] := rfl

/-- Unfolding of `serialize_tile` on a layer-list cons. -/
theorem serialize_tile_cons (d : List Nat) (ls : List (List Nat)) :
    serialize_tile (d :: ls) =
      26 :: (varint_enc d.length ++ (d ++ serialize_tile ls)) := by
  simp [serialize_tile, layer_frame, List.append_assoc]

/-- The tile parser recovers exactly the layer payloads from a serialized
tile, given sufficient fuel. -/
theorem tile_layers_loop_serialize :
    ∀ (ls : List (List Nat)) (fuel : Nat),
      (serialize_tile ls).length < fuel →
      tile_layers_loop fuel (serialize_tile ls) = some ls := by
  intro ls
  induction ls with
  | nil =>
    intro fuel h
    rw [serialize_tile_nil]
    cases fuel <;> rfl
  | cons d ls ih =>
    intro fuel h
    rw [serialize_tile_cons] at h ⊢
    cases fuel with
    | zero => simp at h
    | succ f =>
      have hlen : (serialize_tile ls).length < f := by
        simp only [List.length_cons, List.length_append] at h
        omega
      rw [tile_layers_loop]
      norm_num [varint_dec, varint_dec_enc, List.take_left, List.drop_left,
        List.length_append, ih f hlen]

/-- Claim C1: for every well-formed tile `T` (a concatenation of tag-3
layer frames, i.e. `T = serialize_tile ls0` for some layer payloads `ls0`),
reading `T`'s layers and passing each one through
`tile_builder::add_existing_layer` followed by `serialize()` reproduces
`T`'s buffer exactly — in particular each layer's bytes appear in the
output verbatim (the frames of `serialize_tile` embed the payloads
unchanged), and the parsed layers are exactly the original ones. -/
theorem tile_passthrough_roundtrip (T : List Nat) (ls0 ls : List (List Nat))
    (hT : serialize_tile ls0 = T) (hp : tile_layers T = some ls) :
    serialize_tile ls = T ∧ ls = ls0 := by
  subst hT
  have hq := tile_layers_loop_serialize ls0
    ((serialize_tile ls0).length + 1) (by omega)
  rw [tile_layers, hq] at hp
  cases hp
  exact ⟨rfl, rfl⟩

/-- Witness for claim C1: the two-layer tile with payloads `[7, 8]` and
`[]` serializes to `[26, 2, 7, 8, 26, 0]`, parses back, and the
pass-through reproduces the buffer. -/
theorem tile_passthrough_roundtrip_witness :
    serialize_tile [[7, 8], []] = [26, 2, 7, 8, 26, 0] ∧
    ([[7, 8], []] : List (List Nat)) = [[7, 8], []] :=
  tile_passthrough_roundtrip [26, 2, 7, 8, 26, 0] [[7, 8], []] [[7, 8], []]
    (by norm_num [serialize_tile, layer_frame, varint_enc_small]) rfl

end vtzero
